import Mathlib

/-!
Shallow embedding of the pdf_split program: the grid arithmetic shared by the
split pass and the map pass, the tile geometry (clip and content rectangles),
the stamped labels, the map-pass intersection numbering, and the per-file
orchestration of the two output documents. Geometry is modelled over the
rationals; the loops of the source become lists built in the same order.
-/

namespace PdfSplit

/-- Conversion factor from millimeters to points (source constant MM_TO_POINTS). -/
def MM_TO_POINTS : ℚ := 2.83465

/-- Character marking out-of-range positions (source constant EMPTY_BOX). -/
def EMPTY_BOX : String := "□"

/-- Uppercase of a string, character by character, modelling the upper call of
the source on the paper-size selector. -/
def strUpper (s : String) : String := ⟨s.data.map Char.toUpper⟩

/-- Paper sizes in points (source get_page_size): a dictionary with keys A4
and LEGAL, any other name falling back to A4. -/
def get_page_size (paper_size : String) : ℚ × ℚ :=
  if strUpper paper_size = "A4" then (595, 842)
  else if strUpper paper_size = "LEGAL" then (612, 1008)
  else (595, 842)

/-- Axis-aligned rectangle given by its two corners, as the source builds them
through the rendering library. -/
structure Rect where
  x0 : ℚ
  y0 : ℚ
  x1 : ℚ
  y1 : ℚ
  deriving DecidableEq

/-- Area of a rectangle. -/
def Rect.area (r : Rect) : ℚ := (r.x1 - r.x0) * (r.y1 - r.y0)

/-- Strict interior membership of a point in a rectangle. -/
def Rect.interiorMem (r : Rect) (x y : ℚ) : Prop :=
  r.x0 < x ∧ x < r.x1 ∧ r.y0 < y ∧ y < r.y1

/-- Clip rectangle of tile (row, col) (source create_clip_rect): the near
corner is (col*page_width, row*page_height) and the far corner is clamped by
the extent of the original page. -/
def create_clip_rect (col row : ℕ) (page_width page_height orig_width orig_height : ℚ) :
    Rect :=
  { x0 := col * page_width
    y0 := row * page_height
    x1 := min ((col + 1) * page_width) orig_width
    y1 := min ((row + 1) * page_height) orig_height }

/-- Content rectangle of an output sheet inset by the margin on all four sides
(source create_content_rect). -/
def create_content_rect (page_width page_height margen_pts : ℚ) : Rect :=
  { x0 := margen_pts
    y0 := margen_pts
    x1 := page_width - margen_pts
    y1 := page_height - margen_pts }

/-- Position text (source format_position): out-of-range inputs yield
EMPTY_BOX, in-range inputs the 1-based pair. -/
def format_position (row col max_rows max_cols : ℤ) : String :=
  if row < 0 ∨ col < 0 ∨ max_rows ≤ row ∨ max_cols ≤ col then EMPTY_BOX
  else "(" ++ toString (row + 1) ++ ", " ++ toString (col + 1) ++ ")"

/-- Label text stamped on tile (row, col) (source add_guide_texts): the
current page number is row*max_cols + col + 1, row-major and 1-based. -/
def add_guide_text (input_name : String) (row col max_rows max_cols : ℕ) : String :=
  input_name ++ " " ++ format_position row col max_rows max_cols ++
    " [ " ++ toString (row * max_cols + col + 1) ++ " ]"

/-- The dimensions dictionary handed to process_page by the source. -/
structure Dims where
  page_width : ℚ
  page_height : ℚ
  orig_width : ℚ
  orig_height : ℚ
  margen_pts : ℚ

/-- One output sheet of the split document: its page size, the clip taken from
the original, the content rectangle drawn into, and the stamped label. -/
structure SheetPage where
  row : ℕ
  col : ℕ
  width : ℚ
  height : ℚ
  clip : Rect
  content : Rect
  label : String

/-- source process_page: builds one output sheet for tile (row, col), sized to
the target paper, with its clip and content rectangles and its label. -/
def process_page (input_name : String) (row col : ℕ) (dims : Dims)
    (max_rows max_cols : ℕ) : SheetPage :=
  { row := row
    col := col
    width := dims.page_width
    height := dims.page_height
    clip := create_clip_rect col row dims.page_width dims.page_height
      dims.orig_width dims.orig_height
    content := create_content_rect dims.page_width dims.page_height dims.margen_pts
    label := add_guide_text input_name row col max_rows max_cols }

/-- The grid rule shared by the split pass (source lines 291-292) and the map
pass (source lines 199-200): floor of the ratio, plus one. -/
def computeCols (orig cell : ℚ) : ℕ := (⌊orig / cell⌋).toNat + 1

/-- Result of the split pass: the computed grid, the produced pages in loop
order, and the fact that the source saves the document unconditionally. -/
structure SplitResult where
  rows : ℕ
  cols : ℕ
  pages : List SheetPage
  saved : Bool

/-- source dividir_pdf_con_guia: computes the grid from the original size and
the target sheet size, renders every tile row-major, and saves. -/
def dividir_pdf_con_guia (input_name : String) (orig_width orig_height : ℚ)
    (paper_size : String) (margen : ℚ) : SplitResult :=
  let ps := get_page_size paper_size
  let margen_pts := margen * MM_TO_POINTS
  let cols := computeCols orig_width ps.1
  let rows := computeCols orig_height ps.2
  let dims : Dims := ⟨ps.1, ps.2, orig_width, orig_height, margen_pts⟩
  { rows := rows
    cols := cols
    pages := (List.range rows).flatMap fun row =>
      (List.range cols).map fun col => process_page input_name row col dims rows cols
    saved := true }

/-- One number stamped at a grid intersection of the map page. -/
structure MapStamp where
  col : ℕ
  row : ℕ
  x : ℚ
  y : ℚ
  number : ℕ

/-- The counter loop of create_map_pdf: for each (col, row) pair in loop
order, stamp the current counter at the intersection and increment it. -/
def runMapLoop (grid_width grid_height : ℚ) :
    List (ℕ × ℕ) → ℕ → List MapStamp
  | [], _ => []
  | (c, r) :: rest, counter =>
      ⟨c, r, c * grid_width, r * grid_height, counter⟩ ::
        runMapLoop grid_width grid_height rest (counter + 1)

/-- Result of the map pass: the grid, its spacing, the stamped intersection
numbers, the summary label, the page size, and the unconditional save. -/
structure MapResult where
  cols : ℕ
  rows : ℕ
  grid_width : ℚ
  grid_height : ℚ
  stamps : List MapStamp
  summary : String
  page_width : ℚ
  page_height : ℚ
  saved : Bool

/-- source create_map_pdf: one page sized to the original, the grid computed
from the sheet size minus both margins, the intersections numbered with a
counter starting at 1 running column-major, then the document is saved. -/
def create_map_pdf (input_name : String) (orig_width orig_height : ℚ)
    (paper_size : String) (margen : ℚ) : MapResult :=
  let ps := get_page_size paper_size
  let margen_pts := margen * MM_TO_POINTS
  let grid_width := ps.1 - 2 * margen_pts
  let grid_height := ps.2 - 2 * margen_pts
  let cols := computeCols orig_width grid_width
  let rows := computeCols orig_height grid_height
  { cols := cols
    rows := rows
    grid_width := grid_width
    grid_height := grid_height
    stamps := runMapLoop grid_width grid_height
      ((List.range cols).flatMap fun c => (List.range rows).map fun r => (c, r)) 1
    summary := input_name ++ " [" ++ toString cols ++ "x" ++ toString rows ++ " grid]"
    page_width := orig_width
    page_height := orig_height
    saved := true }

/-- Outcome of one save call of the rendering library. -/
inductive SaveOutcome
  | ok
  | ioError
  deriving DecidableEq

/-- Which of the two output documents of one input file remain persisted. -/
structure FileOutcome where
  splitPersisted : Bool
  mapPersisted : Bool
  deriving DecidableEq

/-- source main, lines 384-407, for one input file: the split document is
saved first, then the map document is produced and saved; there is no
exception handling and no cleanup, so a failing map save leaves the already
saved split document persisted, while a failing split save propagates before
the map pass starts. -/
def processFileOutputs (splitSave mapSave : SaveOutcome) : FileOutcome :=
  match splitSave with
  | .ioError => ⟨false, false⟩
  | .ok =>
    match mapSave with
    | .ioError => ⟨true, false⟩
    | .ok => ⟨true, true⟩

/-! Helper lemmas about the grid rule and the loop-generated lists. -/

lemma computeCols_cast (orig cell : ℚ) (ho : 0 < orig) (hc : 0 < cell) :
    (computeCols orig cell : ℚ) = (⌊orig / cell⌋ : ℚ) + 1 := by
  have hnn : (0 : ℤ) ≤ ⌊orig / cell⌋ := Int.floor_nonneg.mpr (le_of_lt (div_pos ho hc))
  have h1 : ((computeCols orig cell : ℕ) : ℤ) = ⌊orig / cell⌋ + 1 := by
    unfold computeCols
    push_cast
    omega
  exact_mod_cast h1

lemma computeCols_coverage (orig cell : ℚ) (ho : 0 < orig) (hc : 0 < cell) :
    orig ≤ (computeCols orig cell : ℚ) * cell := by
  rw [computeCols_cast orig cell ho hc]
  have h := Int.lt_floor_add_one (orig / cell)
  have h2 := (div_lt_iff₀ hc).mp h
  push_cast at h2 ⊢
  linarith

lemma col_mul_le (orig cell : ℚ) (ho : 0 < orig) (hc : 0 < cell)
    {c : ℕ} (hcol : c < computeCols orig cell) : (c : ℚ) * cell ≤ orig := by
  have hnn : (0 : ℤ) ≤ ⌊orig / cell⌋ := Int.floor_nonneg.mpr (le_of_lt (div_pos ho hc))
  have hle : (c : ℤ) ≤ ⌊orig / cell⌋ := by
    have h1 : c ≤ (⌊orig / cell⌋).toNat := Nat.lt_succ_iff.mp hcol
    omega
  have h2 : (c : ℚ) ≤ orig / cell := by
    calc (c : ℚ) ≤ ((⌊orig / cell⌋ : ℤ) : ℚ) := by exact_mod_cast hle
    _ ≤ orig / cell := Int.floor_le _
  exact (le_div_iff₀ hc).mp h2

lemma grid_list_length {α : Type} (R C : ℕ) (g : ℕ → ℕ → α) :
    ((List.range R).flatMap fun r => (List.range C).map fun c => g r c).length = R * C := by
  induction R with
  | zero => simp
  | succ n ih =>
      rw [List.range_succ, List.flatMap_append, List.length_append, ih]
      simp [Nat.succ_mul]

lemma mem_grid_list {α : Type} {R C : ℕ} {g : ℕ → ℕ → α} {p : α} :
    (p ∈ (List.range R).flatMap fun r => (List.range C).map fun c => g r c) ↔
      ∃ r, r < R ∧ ∃ c, c < C ∧ p = g r c := by
  simp only [List.mem_flatMap, List.mem_map, List.mem_range]
  constructor
  · rintro ⟨r, hr, c, hc, hp⟩
    exact ⟨r, hr, c, hc, hp.symm⟩
  · rintro ⟨r, hr, c, hc, hp⟩
    exact ⟨r, hr, c, hc, hp.symm⟩

lemma str_merge_paren (s : String) : " " ++ ("(" ++ s) = " (" ++ s := by
  rw [← String.append_assoc]
  rfl

lemma str_merge_bracket (s : String) : ")" ++ (" [ " ++ s) = ") [ " ++ s := by
  rw [← String.append_assoc]
  rfl

lemma label_shape (n a b c : String) :
    n ++ " " ++ ("(" ++ a ++ ", " ++ b ++ ")") ++ " [ " ++ c ++ " ]" =
      n ++ " (" ++ a ++ ", " ++ b ++ ") [ " ++ c ++ " ]" := by
  simp only [String.append_assoc]
  rw [str_merge_paren, str_merge_bracket]

lemma format_position_inRange {r c R C : ℕ} (hr : r < R) (hc : c < C) :
    format_position r c R C =
      "(" ++ toString ((r : ℤ) + 1) ++ ", " ++ toString ((c : ℤ) + 1) ++ ")" := by
  unfold format_position
  rw [if_neg]
  omega

lemma paren_ne_box (s : String) : "(" ++ s ≠ EMPTY_BOX := by
  intro h
  have h2 := congrArg String.data h
  rw [String.data_append] at h2
  have h3 : '(' :: s.data = ['□'] := h2
  injection h3 with h4 h5
  exact absurd h4 (by decide)

lemma split_pages_mem (name ps : String) (ow oh m : ℚ) {p : SheetPage} :
    p ∈ (dividir_pdf_con_guia name ow oh ps m).pages ↔
      ∃ r, r < computeCols oh (get_page_size ps).2 ∧
        ∃ c, c < computeCols ow (get_page_size ps).1 ∧
          p = process_page name r c
              ⟨(get_page_size ps).1, (get_page_size ps).2, ow, oh, m * MM_TO_POINTS⟩
              (computeCols oh (get_page_size ps).2) (computeCols ow (get_page_size ps).1) :=
  mem_grid_list

/-- C1: the grid rule returns floor(orig/cell) + 1 columns and rows, hence at
least one of each and full coverage of the original extent; the split pass
uses it with the target sheet size as the cell, the map pass with the sheet
size minus both margins. -/
theorem grid_full_coverage :
    (∀ originalWidth originalHeight cellWidth cellHeight : ℚ,
      0 < originalWidth → 0 < originalHeight → 0 < cellWidth → 0 < cellHeight →
      (computeCols originalWidth cellWidth : ℚ) = (⌊originalWidth / cellWidth⌋ : ℚ) + 1 ∧
      (computeCols originalHeight cellHeight : ℚ) = (⌊originalHeight / cellHeight⌋ : ℚ) + 1 ∧
      1 ≤ computeCols originalWidth cellWidth ∧
      1 ≤ computeCols originalHeight cellHeight ∧
      originalWidth ≤ (computeCols originalWidth cellWidth : ℚ) * cellWidth ∧
      originalHeight ≤ (computeCols originalHeight cellHeight : ℚ) * cellHeight) ∧
    (∀ (name ps : String) (ow oh m : ℚ),
      (dividir_pdf_con_guia name ow oh ps m).cols = computeCols ow (get_page_size ps).1 ∧
      (dividir_pdf_con_guia name ow oh ps m).rows = computeCols oh (get_page_size ps).2 ∧
      (create_map_pdf name ow oh ps m).cols =
        computeCols ow ((get_page_size ps).1 - 2 * (m * MM_TO_POINTS)) ∧
      (create_map_pdf name ow oh ps m).rows =
        computeCols oh ((get_page_size ps).2 - 2 * (m * MM_TO_POINTS))) := by
  constructor
  · intro ow oh cw ch how hoh hcw hch
    refine ⟨computeCols_cast ow cw how hcw, computeCols_cast oh ch hoh hch,
      Nat.succ_le_succ (Nat.zero_le _), Nat.succ_le_succ (Nat.zero_le _),
      computeCols_coverage ow cw how hcw, computeCols_coverage oh ch hoh hch⟩
  · intro name ps ow oh m
    exact ⟨rfl, rfl, rfl, rfl⟩

/-- Witness for C1 at a 1000 by 1000 point original split on A4 sheets. -/
theorem grid_full_coverage_witness :
    (computeCols 1000 595 : ℚ) = (⌊(1000 : ℚ) / 595⌋ : ℚ) + 1 ∧
    (computeCols 1000 842 : ℚ) = (⌊(1000 : ℚ) / 842⌋ : ℚ) + 1 ∧
    1 ≤ computeCols 1000 595 ∧
    1 ≤ computeCols 1000 842 ∧
    (1000 : ℚ) ≤ (computeCols 1000 595 : ℚ) * 595 ∧
    (1000 : ℚ) ≤ (computeCols 1000 842 : ℚ) * 842 :=
  grid_full_coverage.1 1000 1000 595 842 (by norm_num) (by norm_num)
    (by norm_num) (by norm_num)

/-- C2: every produced tile clip rectangle is the spec formula, with the far
corner clamped by the original extent, and every grid position (row, col)
produces such a tile. -/
theorem clip_rect_clamped (name ps : String) (ow oh m : ℚ) :
    (∀ p ∈ (dividir_pdf_con_guia name ow oh ps m).pages,
      p.clip = { x0 := p.col * (get_page_size ps).1
                 y0 := p.row * (get_page_size ps).2
                 x1 := min ((p.col + 1) * (get_page_size ps).1) ow
                 y1 := min ((p.row + 1) * (get_page_size ps).2) oh } ∧
      p.clip.x1 ≤ ow ∧ p.clip.y1 ≤ oh) ∧
    (∀ r c : ℕ, r < (dividir_pdf_con_guia name ow oh ps m).rows →
      c < (dividir_pdf_con_guia name ow oh ps m).cols →
      ∃ p ∈ (dividir_pdf_con_guia name ow oh ps m).pages, p.row = r ∧ p.col = c) := by
  constructor
  · intro p hp
    obtain ⟨r, hr, c, hc, rfl⟩ := (split_pages_mem name ps ow oh m).mp hp
    refine ⟨rfl, min_le_right _ _, min_le_right _ _⟩
  · intro r c hr hc
    exact ⟨process_page name r c
        ⟨(get_page_size ps).1, (get_page_size ps).2, ow, oh, m * MM_TO_POINTS⟩
        (computeCols oh (get_page_size ps).2) (computeCols ow (get_page_size ps).1),
      (split_pages_mem name ps ow oh m).mpr ⟨r, hr, c, hc, rfl⟩, rfl, rfl⟩

/-- Witness for C2 at tile (0, 0) of a 1000 by 1000 point original on A4. -/
theorem clip_rect_clamped_witness :
    create_clip_rect 0 0 (get_page_size "A4").1 (get_page_size "A4").2 1000 1000 =
      { x0 := ((0 : ℕ) : ℚ) * (get_page_size "A4").1
        y0 := ((0 : ℕ) : ℚ) * (get_page_size "A4").2
        x1 := min ((((0 : ℕ) : ℚ) + 1) * (get_page_size "A4").1) 1000
        y1 := min ((((0 : ℕ) : ℚ) + 1) * (get_page_size "A4").2) 1000 } ∧
    (create_clip_rect 0 0 (get_page_size "A4").1 (get_page_size "A4").2 1000 1000).x1 ≤ 1000 ∧
    (create_clip_rect 0 0 (get_page_size "A4").1 (get_page_size "A4").2 1000 1000).y1 ≤ 1000 :=
  (clip_rect_clamped "plan" "A4" 1000 1000 10).1
    (process_page "plan" 0 0
      ⟨(get_page_size "A4").1, (get_page_size "A4").2, 1000, 1000, 10 * MM_TO_POINTS⟩
      (computeCols 1000 (get_page_size "A4").2) (computeCols 1000 (get_page_size "A4").1))
    ((split_pages_mem "plan" "A4" 1000 1000 10).mpr
      ⟨0, Nat.succ_pos _, 0, Nat.succ_pos _, rfl⟩)

/-- C3: every tile (row, col) carries the label
name (row+1, col+1) [ row*cols + col + 1 ], the tile at (0, 0) reads
name (1, 1) [ 1 ], every sequence number is at most rows*cols, and the last
tile attains rows*cols. -/
theorem tile_label_text (name ps : String) (ow oh m : ℚ) :
    (∀ r c : ℕ, r < (dividir_pdf_con_guia name ow oh ps m).rows →
      c < (dividir_pdf_con_guia name ow oh ps m).cols →
      ∃ p ∈ (dividir_pdf_con_guia name ow oh ps m).pages, p.row = r ∧ p.col = c ∧
        p.label = name ++ " (" ++ toString ((r : ℤ) + 1) ++ ", " ++
          toString ((c : ℤ) + 1) ++ ") [ " ++
          toString (r * (dividir_pdf_con_guia name ow oh ps m).cols + c + 1) ++ " ]") ∧
    (∃ p ∈ (dividir_pdf_con_guia name ow oh ps m).pages, p.row = 0 ∧ p.col = 0 ∧
      p.label = name ++ " (1, 1) [ 1 ]") ∧
    (∀ p ∈ (dividir_pdf_con_guia name ow oh ps m).pages,
      p.row * (dividir_pdf_con_guia name ow oh ps m).cols + p.col + 1 ≤
        (dividir_pdf_con_guia name ow oh ps m).rows *
          (dividir_pdf_con_guia name ow oh ps m).cols) ∧
    (∃ p ∈ (dividir_pdf_con_guia name ow oh ps m).pages,
      p.row * (dividir_pdf_con_guia name ow oh ps m).cols + p.col + 1 =
        (dividir_pdf_con_guia name ow oh ps m).rows *
          (dividir_pdf_con_guia name ow oh ps m).cols) := by
  have hmain : ∀ r c : ℕ, r < computeCols oh (get_page_size ps).2 →
      c < computeCols ow (get_page_size ps).1 →
      ∃ p ∈ (dividir_pdf_con_guia name ow oh ps m).pages, p.row = r ∧ p.col = c ∧
        p.label = name ++ " (" ++ toString ((r : ℤ) + 1) ++ ", " ++
          toString ((c : ℤ) + 1) ++ ") [ " ++
          toString (r * computeCols ow (get_page_size ps).1 + c + 1) ++ " ]" := by
    intro r c hr hc
    refine ⟨process_page name r c
        ⟨(get_page_size ps).1, (get_page_size ps).2, ow, oh, m * MM_TO_POINTS⟩
        (computeCols oh (get_page_size ps).2) (computeCols ow (get_page_size ps).1),
      (split_pages_mem name ps ow oh m).mpr ⟨r, hr, c, hc, rfl⟩, rfl, rfl, ?_⟩
    show add_guide_text name r c _ _ = _
    unfold add_guide_text
    rw [format_position_inRange hr hc, label_shape]
  refine ⟨hmain, ?_, ?_, ?_⟩
  · obtain ⟨p, hp, hrow, hcol, hlabel⟩ :=
      hmain 0 0 (Nat.succ_pos _) (Nat.succ_pos _)
    refine ⟨p, hp, hrow, hcol, ?_⟩
    rw [hlabel, Nat.zero_mul]
    simp only [String.append_assoc]
    rw [show (" (" ++ (toString (((0 : ℕ) : ℤ) + 1) ++ (", " ++
      (toString (((0 : ℕ) : ℤ) + 1) ++ (") [ " ++ (toString (0 + 0 + 1) ++ " ]")))))
        : String) = " (1, 1) [ 1 ]" from rfl]
  · intro p hp
    obtain ⟨r, hr, c, hc, rfl⟩ := (split_pages_mem name ps ow oh m).mp hp
    show r * computeCols ow (get_page_size ps).1 + c + 1 ≤
      computeCols oh (get_page_size ps).2 * computeCols ow (get_page_size ps).1
    have h1 : (r + 1) * computeCols ow (get_page_size ps).1 ≤
        computeCols oh (get_page_size ps).2 * computeCols ow (get_page_size ps).1 :=
      Nat.mul_le_mul_right _ hr
    rw [Nat.succ_mul] at h1
    omega
  · set R := computeCols oh (get_page_size ps).2 with hR
    set C := computeCols ow (get_page_size ps).1 with hC
    have hRpos : 0 < R := Nat.succ_pos _
    have hCpos : 0 < C := Nat.succ_pos _
    obtain ⟨p, hp, hrow, hcol, _⟩ :=
      hmain (R - 1) (C - 1) (Nat.sub_lt hRpos Nat.one_pos) (Nat.sub_lt hCpos Nat.one_pos)
    refine ⟨p, hp, ?_⟩
    show p.row * C + p.col + 1 = R * C
    rw [hrow, hcol]
    have h1 : (R - 1 + 1) * C = (R - 1) * C + C := Nat.succ_mul _ _
    rw [Nat.sub_add_cancel hRpos] at h1
    omega

/-- Witness for C3: the sequence number of tile (0, 0) of a 1000 by 1000
point A4 split is bounded by rows times cols. -/
theorem tile_label_text_witness :
    0 * (dividir_pdf_con_guia "plan" 1000 1000 "A4" 10).cols + 0 + 1 ≤
      (dividir_pdf_con_guia "plan" 1000 1000 "A4" 10).rows *
        (dividir_pdf_con_guia "plan" 1000 1000 "A4" 10).cols :=
  (tile_label_text "plan" "A4" 1000 1000 10).2.2.1
    (process_page "plan" 0 0
      ⟨(get_page_size "A4").1, (get_page_size "A4").2, 1000, 1000, 10 * MM_TO_POINTS⟩
      (computeCols 1000 (get_page_size "A4").2) (computeCols 1000 (get_page_size "A4").1))
    ((split_pages_mem "plan" "A4" 1000 1000 10).mpr
      ⟨0, Nat.succ_pos _, 0, Nat.succ_pos _, rfl⟩)

/-- C8: the split output contains exactly rows * cols pages and every page is
sized to the chosen target paper size. -/
theorem split_output_pages (name ps : String) (ow oh m : ℚ) :
    (dividir_pdf_con_guia name ow oh ps m).pages.length =
      (dividir_pdf_con_guia name ow oh ps m).rows *
        (dividir_pdf_con_guia name ow oh ps m).cols ∧
    ∀ p ∈ (dividir_pdf_con_guia name ow oh ps m).pages,
      p.width = (get_page_size ps).1 ∧ p.height = (get_page_size ps).2 := by
  constructor
  · exact grid_list_length _ _ _
  · intro p hp
    obtain ⟨r, hr, c, hc, rfl⟩ := (split_pages_mem name ps ow oh m).mp hp
    exact ⟨rfl, rfl⟩

/-- Witness for C8 on a 1000 by 1000 point original split on A4 sheets: the
page count is rows times cols and tile (0, 0) is sized to the sheet. -/
theorem split_output_pages_witness :
    (dividir_pdf_con_guia "plan" 1000 1000 "A4" 10).pages.length =
      (dividir_pdf_con_guia "plan" 1000 1000 "A4" 10).rows *
        (dividir_pdf_con_guia "plan" 1000 1000 "A4" 10).cols ∧
    (process_page "plan" 0 0
      ⟨(get_page_size "A4").1, (get_page_size "A4").2, 1000, 1000, 10 * MM_TO_POINTS⟩
      (computeCols 1000 (get_page_size "A4").2)
      (computeCols 1000 (get_page_size "A4").1)).width = (get_page_size "A4").1 ∧
    (process_page "plan" 0 0
      ⟨(get_page_size "A4").1, (get_page_size "A4").2, 1000, 1000, 10 * MM_TO_POINTS⟩
      (computeCols 1000 (get_page_size "A4").2)
      (computeCols 1000 (get_page_size "A4").1)).height = (get_page_size "A4").2 :=
  ⟨(split_output_pages "plan" "A4" 1000 1000 10).1,
    (split_output_pages "plan" "A4" 1000 1000 10).2
      (process_page "plan" 0 0
        ⟨(get_page_size "A4").1, (get_page_size "A4").2, 1000, 1000, 10 * MM_TO_POINTS⟩
        (computeCols 1000 (get_page_size "A4").2) (computeCols 1000 (get_page_size "A4").1))
      ((split_pages_mem "plan" "A4" 1000 1000 10).mpr
        ⟨0, Nat.succ_pos _, 0, Nat.succ_pos _, rfl⟩)⟩

/-- C9: format_position is a total function returning the 1-based pair in
range and the fixed EMPTY_BOX marker out of range, and within the tile loop
of the split pass the out-of-range branch is never taken. -/
theorem format_position_spec :
    (∀ row col max_rows max_cols : ℤ,
      (0 ≤ row → row < max_rows → 0 ≤ col → col < max_cols →
        format_position row col max_rows max_cols =
          "(" ++ toString (row + 1) ++ ", " ++ toString (col + 1) ++ ")") ∧
      ((row < 0 ∨ col < 0 ∨ max_rows ≤ row ∨ max_cols ≤ col) →
        format_position row col max_rows max_cols = EMPTY_BOX)) ∧
    (∀ (name ps : String) (ow oh m : ℚ),
      ∀ p ∈ (dividir_pdf_con_guia name ow oh ps m).pages,
        p.row < (dividir_pdf_con_guia name ow oh ps m).rows ∧
        p.col < (dividir_pdf_con_guia name ow oh ps m).cols ∧
        format_position p.row p.col (dividir_pdf_con_guia name ow oh ps m).rows
          (dividir_pdf_con_guia name ow oh ps m).cols ≠ EMPTY_BOX) := by
  constructor
  · intro row col max_rows max_cols
    constructor
    · intro h1 h2 h3 h4
      unfold format_position
      rw [if_neg]
      omega
    · intro h
      unfold format_position
      rw [if_pos h]
  · intro name ps ow oh m p hp
    obtain ⟨r, hr, c, hc, rfl⟩ := (split_pages_mem name ps ow oh m).mp hp
    refine ⟨hr, hc, ?_⟩
    show format_position r c (computeCols oh (get_page_size ps).2)
      (computeCols ow (get_page_size ps).1) ≠ EMPTY_BOX
    rw [format_position_inRange hr hc]
    simp only [String.append_assoc]
    exact paren_ne_box _

/-- Witness for C9 at in-range and out-of-range integer inputs. -/
theorem format_position_spec_witness :
    format_position 0 2 3 4 = "(" ++ toString ((0 : ℤ) + 1) ++ ", " ++
      toString ((2 : ℤ) + 1) ++ ")" ∧
    format_position (-1) 2 3 4 = EMPTY_BOX :=
  ⟨(format_position_spec.1 0 2 3 4).1 (by decide) (by decide) (by decide) (by decide),
    (format_position_spec.1 (-1) 2 3 4).2 (Or.inl (by decide))⟩

lemma runMapLoop_append (gw gh : ℚ) (l1 l2 : List (ℕ × ℕ)) (k : ℕ) :
    runMapLoop gw gh (l1 ++ l2) k =
      runMapLoop gw gh l1 k ++ runMapLoop gw gh l2 (k + l1.length) := by
  induction l1 generalizing k with
  | nil => simp [runMapLoop]
  | cons hd tl ih =>
      obtain ⟨c, r⟩ := hd
      simp only [List.cons_append, runMapLoop, List.length_cons, List.append_eq]
      rw [ih, show k + 1 + tl.length = k + (tl.length + 1) from by omega]

lemma runMapLoop_inner (gw gh : ℚ) (c R k : ℕ) :
    runMapLoop gw gh ((List.range R).map fun r => (c, r)) k =
      (List.range R).map fun r => (⟨c, r, c * gw, r * gh, k + r⟩ : MapStamp) := by
  induction R with
  | zero => simp [runMapLoop]
  | succ n ih =>
      rw [List.range_succ, List.map_append, List.map_append, runMapLoop_append, ih]
      simp [runMapLoop]

lemma mapStamps_closed (gw gh : ℚ) (cols rows k : ℕ) :
    runMapLoop gw gh
        ((List.range cols).flatMap fun c => (List.range rows).map fun r => (c, r)) k =
      (List.range cols).flatMap fun c => (List.range rows).map fun r =>
        (⟨c, r, c * gw, r * gh, k + (c * rows + r)⟩ : MapStamp) := by
  induction cols with
  | zero => simp [runMapLoop]
  | succ n ih =>
      rw [List.range_succ, List.flatMap_append, List.flatMap_append,
        runMapLoop_append, ih, grid_list_length]
      simp only [List.flatMap_cons, List.flatMap_nil, List.append_nil]
      rw [runMapLoop_inner]
      simp [Nat.add_assoc]

/-- C4: every map intersection stamp at vertical line col and row position row
sits at (col*cellWidth, row*cellHeight) and carries number col*rows + row + 1,
the column-major order, and every (col, row) position of the grid receives
such a stamp. -/
theorem map_numbering (name ps : String) (ow oh m : ℚ) :
    (∀ s ∈ (create_map_pdf name ow oh ps m).stamps,
      s.col < (create_map_pdf name ow oh ps m).cols ∧
      s.row < (create_map_pdf name ow oh ps m).rows ∧
      s.x = s.col * (create_map_pdf name ow oh ps m).grid_width ∧
      s.y = s.row * (create_map_pdf name ow oh ps m).grid_height ∧
      s.number = s.col * (create_map_pdf name ow oh ps m).rows + s.row + 1) ∧
    (∀ c r : ℕ, c < (create_map_pdf name ow oh ps m).cols →
      r < (create_map_pdf name ow oh ps m).rows →
      ∃ s ∈ (create_map_pdf name ow oh ps m).stamps,
        s.col = c ∧ s.row = r ∧
        s.number = c * (create_map_pdf name ow oh ps m).rows + r + 1) := by
  have hstamps : (create_map_pdf name ow oh ps m).stamps =
      (List.range (computeCols ow ((get_page_size ps).1 - 2 * (m * MM_TO_POINTS)))).flatMap
        fun c => (List.range
          (computeCols oh ((get_page_size ps).2 - 2 * (m * MM_TO_POINTS)))).map
          fun r => (⟨c, r, c * ((get_page_size ps).1 - 2 * (m * MM_TO_POINTS)),
            r * ((get_page_size ps).2 - 2 * (m * MM_TO_POINTS)),
            1 + (c * computeCols oh ((get_page_size ps).2 - 2 * (m * MM_TO_POINTS)) + r)⟩
              : MapStamp) :=
    mapStamps_closed _ _ _ _ 1
  constructor
  · intro s hs
    rw [hstamps] at hs
    obtain ⟨c, hc, r, hr, rfl⟩ := mem_grid_list.mp hs
    refine ⟨hc, hr, rfl, rfl, ?_⟩
    show 1 + (c * computeCols oh ((get_page_size ps).2 - 2 * (m * MM_TO_POINTS)) + r) =
      c * computeCols oh ((get_page_size ps).2 - 2 * (m * MM_TO_POINTS)) + r + 1
    omega
  · intro c r hc hr
    refine ⟨⟨c, r, c * ((get_page_size ps).1 - 2 * (m * MM_TO_POINTS)),
      r * ((get_page_size ps).2 - 2 * (m * MM_TO_POINTS)),
      1 + (c * computeCols oh ((get_page_size ps).2 - 2 * (m * MM_TO_POINTS)) + r)⟩,
      ?_, rfl, rfl, ?_⟩
    · rw [hstamps]
      exact mem_grid_list.mpr ⟨c, hc, r, hr, rfl⟩
    · show 1 + (c * computeCols oh ((get_page_size ps).2 - 2 * (m * MM_TO_POINTS)) + r) =
        c * computeCols oh ((get_page_size ps).2 - 2 * (m * MM_TO_POINTS)) + r + 1
      omega

/-- Witness for C4: on a 1000 by 1000 point original mapped for A4 sheets
with a 10 mm margin, the stamp at vertical line 1 and row 0 carries the
column-major number 1 * rows + 0 + 1. -/
theorem map_numbering_witness :
    (1 : ℕ) < (create_map_pdf "plan" 1000 1000 "A4" 10).cols ∧
    (0 : ℕ) < (create_map_pdf "plan" 1000 1000 "A4" 10).rows ∧
    ((1 : ℕ) : ℚ) * ((get_page_size "A4").1 - 2 * (10 * MM_TO_POINTS)) =
      ((1 : ℕ) : ℚ) * (create_map_pdf "plan" 1000 1000 "A4" 10).grid_width ∧
    ((0 : ℕ) : ℚ) * ((get_page_size "A4").2 - 2 * (10 * MM_TO_POINTS)) =
      ((0 : ℕ) : ℚ) * (create_map_pdf "plan" 1000 1000 "A4" 10).grid_height ∧
    1 + (1 * computeCols 1000 ((get_page_size "A4").2 - 2 * (10 * MM_TO_POINTS)) + 0) =
      1 * (create_map_pdf "plan" 1000 1000 "A4" 10).rows + 0 + 1 := by
  have h1 : (⌊(1000 : ℚ) / (595 - 2 * (10 * MM_TO_POINTS))⌋) = 1 := by
    norm_num [MM_TO_POINTS]
  have hc : 1 < computeCols 1000 ((get_page_size "A4").1 - 2 * (10 * MM_TO_POINTS)) := by
    show 1 < (⌊(1000 : ℚ) / (595 - 2 * (10 * MM_TO_POINTS))⌋).toNat + 1
    rw [h1]
    decide
  have hmem : (⟨1, 0, ((1 : ℕ) : ℚ) * ((get_page_size "A4").1 - 2 * (10 * MM_TO_POINTS)),
      ((0 : ℕ) : ℚ) * ((get_page_size "A4").2 - 2 * (10 * MM_TO_POINTS)),
      1 + (1 * computeCols 1000 ((get_page_size "A4").2 - 2 * (10 * MM_TO_POINTS)) + 0)⟩
        : MapStamp) ∈ (create_map_pdf "plan" 1000 1000 "A4" 10).stamps := by
    rw [show (create_map_pdf "plan" 1000 1000 "A4" 10).stamps = _ from mapStamps_closed
      ((get_page_size "A4").1 - 2 * (10 * MM_TO_POINTS))
      ((get_page_size "A4").2 - 2 * (10 * MM_TO_POINTS))
      (computeCols 1000 ((get_page_size "A4").1 - 2 * (10 * MM_TO_POINTS)))
      (computeCols 1000 ((get_page_size "A4").2 - 2 * (10 * MM_TO_POINTS))) 1]
    exact mem_grid_list.mpr ⟨1, hc, 0, Nat.succ_pos _, rfl⟩
  exact (map_numbering "plan" "A4" 1000 1000 10).1 _ hmem

lemma clip_width_sum (orig cell : ℚ) (ho : 0 < orig) (hc : 0 < cell) :
    ∑ c ∈ Finset.range (computeCols orig cell),
      (min (((c : ℚ) + 1) * cell) orig - (c : ℚ) * cell) = orig := by
  have hterm : ∀ c ∈ Finset.range (computeCols orig cell),
      min (((c : ℚ) + 1) * cell) orig - (c : ℚ) * cell =
        (fun n : ℕ => min ((n : ℚ) * cell) orig) (c + 1) -
          (fun n : ℕ => min ((n : ℚ) * cell) orig) c := by
    intro c hcm
    simp only
    rw [min_eq_left (col_mul_le orig cell ho hc (Finset.mem_range.mp hcm))]
    push_cast
    ring_nf
  rw [Finset.sum_congr rfl hterm,
    Finset.sum_range_sub (fun n : ℕ => min ((n : ℚ) * cell) orig)]
  simp only [Nat.cast_zero, zero_mul]
  rw [min_eq_right (computeCols_coverage orig cell ho hc), min_eq_left ho.le, sub_zero]

lemma strip_disjoint (cell orig : ℚ) (hcell : 0 < cell) {a b : ℕ} (hab : a < b) (x : ℚ)
    (h1 : x < min (((a : ℚ) + 1) * cell) orig) (h2 : (b : ℚ) * cell < x) : False := by
  have hc1 : ((a : ℚ) + 1) ≤ (b : ℚ) := by exact_mod_cast hab
  have h3 : x < ((a : ℚ) + 1) * cell := lt_of_lt_of_le h1 (min_le_left _ _)
  have h4 : ((a : ℚ) + 1) * cell ≤ (b : ℚ) * cell :=
    mul_le_mul_of_nonneg_right hc1 hcell.le
  linarith

/-- C7: the clip rectangles of all tiles partition the original page: their
areas sum exactly to the original area and their interiors are pairwise
disjoint, degenerate trailing cells included. -/
theorem tiling_partition (pw ph ow oh : ℚ) (hpw : 0 < pw) (hph : 0 < ph)
    (how : 0 < ow) (hoh : 0 < oh) :
    (∑ r ∈ Finset.range (computeCols oh ph), ∑ c ∈ Finset.range (computeCols ow pw),
      (create_clip_rect c r pw ph ow oh).area) = ow * oh ∧
    (∀ r c r' c' : ℕ, r < computeCols oh ph → c < computeCols ow pw →
      r' < computeCols oh ph → c' < computeCols ow pw → (r, c) ≠ (r', c') →
      ∀ x y : ℚ, ¬((create_clip_rect c r pw ph ow oh).interiorMem x y ∧
        (create_clip_rect c' r' pw ph ow oh).interiorMem x y)) := by
  constructor
  · have harea : ∀ r c : ℕ, (create_clip_rect c r pw ph ow oh).area =
        (min (((c : ℚ) + 1) * pw) ow - (c : ℚ) * pw) *
          (min (((r : ℚ) + 1) * ph) oh - (r : ℚ) * ph) := fun r c => rfl
    calc ∑ r ∈ Finset.range (computeCols oh ph), ∑ c ∈ Finset.range (computeCols ow pw),
          (create_clip_rect c r pw ph ow oh).area
        = ∑ r ∈ Finset.range (computeCols oh ph),
            (∑ c ∈ Finset.range (computeCols ow pw),
              (min (((c : ℚ) + 1) * pw) ow - (c : ℚ) * pw)) *
            (min (((r : ℚ) + 1) * ph) oh - (r : ℚ) * ph) := by
          refine Finset.sum_congr rfl fun r _ => ?_
          rw [Finset.sum_mul]
          exact Finset.sum_congr rfl fun c _ => harea r c
      _ = ∑ r ∈ Finset.range (computeCols oh ph),
            ow * (min (((r : ℚ) + 1) * ph) oh - (r : ℚ) * ph) := by
          refine Finset.sum_congr rfl fun r _ => ?_
          rw [clip_width_sum ow pw how hpw]
      _ = ow * ∑ r ∈ Finset.range (computeCols oh ph),
            (min (((r : ℚ) + 1) * ph) oh - (r : ℚ) * ph) := (Finset.mul_sum _ _ _).symm
      _ = ow * oh := by rw [clip_width_sum oh ph hoh hph]
  · intro r c r' c' hr hc hr' hc' hne x y hboth
    obtain ⟨⟨hx0, hx1, hy0, hy1⟩, ⟨hx0b, hx1b, hy0b, hy1b⟩⟩ := hboth
    rcases Nat.lt_trichotomy c c' with hcc | hcc | hcc
    · exact strip_disjoint pw ow hpw hcc x hx1 hx0b
    · rcases Nat.lt_trichotomy r r' with hrr | hrr | hrr
      · exact strip_disjoint ph oh hph hrr y hy1 hy0b
      · exact hne (by rw [hcc, hrr])
      · exact strip_disjoint ph oh hph hrr y hy1b hy0
    · exact strip_disjoint pw ow hpw hcc x hx1b hx0

/-- Witness for C7 at a 1000 by 1000 point original and A4 cells: the clip
areas sum to the original area. -/
theorem tiling_partition_witness :
    (∑ r ∈ Finset.range (computeCols 1000 842), ∑ c ∈ Finset.range (computeCols 1000 595),
      (create_clip_rect c r 595 842 1000 1000).area) = 1000 * 1000 :=
  (tiling_partition 595 842 1000 1000 (by norm_num) (by norm_num)
    (by norm_num) (by norm_num)).1

/-- C10: for grid-produced indices the clip rectangle is well formed and
contained in the original page: corners are ordered and never exceed the
original extent. -/
theorem clip_rect_wellformed (pw ph ow oh : ℚ) (hpw : 0 < pw) (hph : 0 < ph)
    (how : 0 < ow) (hoh : 0 < oh) (r c : ℕ) (hr : r < computeCols oh ph)
    (hc : c < computeCols ow pw) :
    0 ≤ (create_clip_rect c r pw ph ow oh).x0 ∧
    (create_clip_rect c r pw ph ow oh).x0 ≤ (create_clip_rect c r pw ph ow oh).x1 ∧
    (create_clip_rect c r pw ph ow oh).x1 ≤ ow ∧
    0 ≤ (create_clip_rect c r pw ph ow oh).y0 ∧
    (create_clip_rect c r pw ph ow oh).y0 ≤ (create_clip_rect c r pw ph ow oh).y1 ∧
    (create_clip_rect c r pw ph ow oh).y1 ≤ oh := by
  refine ⟨show (0 : ℚ) ≤ (c : ℚ) * pw by positivity, ?_, min_le_right _ _,
    show (0 : ℚ) ≤ (r : ℚ) * ph by positivity, ?_, min_le_right _ _⟩
  · refine le_min ?_ (col_mul_le ow pw how hpw hc)
    have h1 : (c : ℚ) ≤ (c : ℚ) + 1 := by linarith
    exact mul_le_mul_of_nonneg_right h1 hpw.le
  · refine le_min ?_ (col_mul_le oh ph hoh hph hr)
    have h1 : (r : ℚ) ≤ (r : ℚ) + 1 := by linarith
    exact mul_le_mul_of_nonneg_right h1 hph.le

/-- Witness for C10 at tile (1, 1) of a 1000 by 1000 point original on A4. -/
theorem clip_rect_wellformed_witness :
    0 ≤ (create_clip_rect 1 1 595 842 1000 1000).x0 ∧
    (create_clip_rect 1 1 595 842 1000 1000).x0 ≤ (create_clip_rect 1 1 595 842 1000 1000).x1 ∧
    (create_clip_rect 1 1 595 842 1000 1000).x1 ≤ 1000 ∧
    0 ≤ (create_clip_rect 1 1 595 842 1000 1000).y0 ∧
    (create_clip_rect 1 1 595 842 1000 1000).y0 ≤ (create_clip_rect 1 1 595 842 1000 1000).y1 ∧
    (create_clip_rect 1 1 595 842 1000 1000).y1 ≤ 1000 := by
  have h1 : (⌊(1000 : ℚ) / 842⌋) = 1 := by norm_num
  have h2 : (⌊(1000 : ℚ) / 595⌋) = 1 := by norm_num
  have hr : 1 < computeCols 1000 842 := by
    show 1 < (⌊(1000 : ℚ) / 842⌋).toNat + 1
    rw [h1]
    decide
  have hc : 1 < computeCols 1000 595 := by
    show 1 < (⌊(1000 : ℚ) / 595⌋).toNat + 1
    rw [h2]
    decide
  exact clip_rect_wellformed 595 842 1000 1000 (by norm_num) (by norm_num)
    (by norm_num) (by norm_num) 1 1 hr hc

/-- C5 evidence: with A4 sheets and a 150 mm margin the margin reaches half
the smaller sheet dimension, yet the split pass performs no validation: it
still produces every grid page with an inverted content rectangle and saves
the output document. -/
theorem margin_not_validated :
    min (get_page_size "A4").1 (get_page_size "A4").2 / 2 ≤ (150 : ℚ) * MM_TO_POINTS ∧
    (dividir_pdf_con_guia "plan" 1000 1000 "A4" 150).saved = true ∧
    0 < (dividir_pdf_con_guia "plan" 1000 1000 "A4" 150).pages.length ∧
    ∀ p ∈ (dividir_pdf_con_guia "plan" 1000 1000 "A4" 150).pages,
      p.content.x1 < p.content.x0 := by
  refine ⟨?_, rfl, ?_, ?_⟩
  · show min (595 : ℚ) 842 / 2 ≤ (150 : ℚ) * MM_TO_POINTS
    norm_num [MM_TO_POINTS]
  · have hlen : (dividir_pdf_con_guia "plan" 1000 1000 "A4" 150).pages.length =
        computeCols 1000 (get_page_size "A4").2 * computeCols 1000 (get_page_size "A4").1 :=
      grid_list_length _ _ _
    rw [hlen]
    exact Nat.mul_pos (Nat.succ_pos _) (Nat.succ_pos _)
  · intro p hp
    obtain ⟨r, hr, c, hc, rfl⟩ := (split_pages_mem "plan" "A4" 1000 1000 150).mp hp
    show (595 : ℚ) - 150 * MM_TO_POINTS < 150 * MM_TO_POINTS
    norm_num [MM_TO_POINTS]

/-- C6 counterexample: when the split save succeeds and the map save fails, the
split document remains persisted while the map document does not, so the two
outputs of one input file are not all-or-nothing. -/
theorem map_failure_keeps_split :
    (processFileOutputs SaveOutcome.ok SaveOutcome.ioError).splitPersisted = true ∧
    (processFileOutputs SaveOutcome.ok SaveOutcome.ioError).mapPersisted = false :=
  ⟨rfl, rfl⟩

/-- C6 amended: the orchestration is sequential with no cleanup: a map
document is never persisted without its split document, but a map failure
after the split save leaves the split document persisted on its own. -/
theorem map_implies_split_persisted :
    ∀ s m : SaveOutcome, (processFileOutputs s m).mapPersisted = true →
      (processFileOutputs s m).splitPersisted = true := by
  intro s m h
  cases s with
  | ioError => exact absurd h (by simp [processFileOutputs])
  | ok =>
    cases m with
    | ioError => rfl
    | ok => rfl

/-- Witness for the amended C6 at a run where both saves succeed. -/
theorem map_implies_split_persisted_witness :
    (processFileOutputs SaveOutcome.ok SaveOutcome.ok).splitPersisted = true :=
  map_implies_split_persisted SaveOutcome.ok SaveOutcome.ok rfl

end PdfSplit
